import Mathlib

/-!
Verification of the runplat-crates plugin runtime against its specification.

The development shallowly embeds the data model and operations of the
`runir`, `reality` and `kioto` crates: Rust `BTreeMap` state becomes an
association list with replacing insert, `u64` arithmetic becomes `Nat`
with explicit `% 2^64` where width matters, fallible code returns
`Except`, and code that can panic returns an outcome type with an
explicit panic constructor.
-/

namespace Runplat

/-! ## Association-list maps, modelling Rust BTreeMap -/

/-- Lookup in an association list, modelling BTreeMap::get. -/
def mapGet {α β : Type} [DecidableEq α] : List (α × β) → α → Option β
  | [], _ => none
  | (k, v) :: rest, a => if k = a then some v else mapGet rest a

/-- Replacing insert, modelling BTreeMap::insert; returns the new map and the previous value. -/
def mapInsert {α β : Type} [DecidableEq α] : List (α × β) → α → β → List (α × β) × Option β
  | [], a, b => ([(a, b)], none)
  | (k, v) :: rest, a, b =>
    if k = a then ((a, b) :: rest, some v)
    else
      let r := mapInsert rest a b
      ((k, v) :: r.1, r.2)

/-- Removal, modelling BTreeMap::remove; returns the new map and the removed value. -/
def mapRemove {α β : Type} [DecidableEq α] : List (α × β) → α → List (α × β) × Option β
  | [], _ => ([], none)
  | (k, v) :: rest, a =>
    if k = a then (rest, some v)
    else
      let r := mapRemove rest a
      ((k, v) :: r.1, r.2)

/-! ## Errors of the reality crate

Modelled from src/reality/src/lib.rs (enum Error).  The constructor
`pluginAborted` does not occur in that enum; it is nevertheless included
because src/reality/src/plugin/work.rs line 19 constructs
`Error::PluginAborted`, so the value space of the model must carry it. -/

inductive ErrorM where
  | taskError (isPanic isCancel : Bool)
  | ioError (message : String)
  | serializationError (message : String)
  | loadPluginError
  | incompletePluginName
  | previousUnhandledRequest
  | writeRequestRaceCondition
  | pluginNotFound
  | pluginMismatch
  | pluginHandlerTargetMismatch
  | pluginHandlerCallSkipped
  | pluginCallCancelled
  | pluginCallSkipped
  | pluginCallError (name message : String)
  | pluginAborted
deriving DecidableEq, Repr

/-! ## Broker (src/reality/src/plugin/messages.rs) -/

/-- Message payloads, modelling enum MessageData.  Payload contents are
abstracted to simple data since the broker treats them opaquely. -/
inductive MessageData where
  | toml (table : List (String × String))
  | json (map : List (String × String))
  | bytes (bs : List Nat)
  | item (commit : Nat)
  | empty
deriving DecidableEq, Repr

/-- Broker state: the commit-id-keyed inbox map. -/
def BrokerState : Type := List (Nat × MessageData)

instance : DecidableEq BrokerState := by
  unfold BrokerState
  infer_instance

/-- Broker::send, modelling the read-then-write two-phase of the source:
if the read phase sees an existing entry the send fails with
PreviousUnhandledRequest; otherwise the write phase inserts, and if the
insert displaces a previous entry (a race, impossible sequentially) the
previous entry is restored and WriteRequestRaceCondition is returned. -/
def brokerSend (b : BrokerState) (dest : Nat) (data : MessageData) :
    Except ErrorM Unit × BrokerState :=
  if (mapGet b dest).isSome then
    (.error .previousUnhandledRequest, b)
  else
    let r := mapInsert b dest data
    match r.2 with
    | some previous =>
      let removed := (mapRemove r.1 dest).1
      (.error .writeRequestRaceCondition, (mapInsert removed dest previous).1)
    | none => (.ok (), r.1)

/-- Broker::receive: atomically remove and return the pending message,
or Empty if absent. -/
def brokerReceive (b : BrokerState) (commit : Nat) : MessageData × BrokerState :=
  let r := mapRemove b commit
  (r.2.getD .empty, r.1)

/-! ## Journal (src/runir/src/repr/repo/journal.rs) -/

/-- Handle model: a commit id plus the committed representation payload
(the type-erased pointer is abstracted to a tag). -/
structure HandleM where
  commit : Nat
  repr : Nat
deriving DecidableEq, Repr

/-- Journal state: the commit-id to handle log map. -/
def JournalState : Type := List (Nat × HandleM)

instance : DecidableEq JournalState := by
  unfold JournalState
  infer_instance

instance : Repr JournalState := by
  unfold JournalState
  infer_instance

/-- Log::record: if the commit id is already present the log is left
unchanged; otherwise the handle is recorded.  Returns the link value. -/
def journalRecord (j : JournalState) (h : HandleM) : Nat × JournalState :=
  if (mapGet j h.commit).isSome then
    (h.commit, j)
  else
    (h.commit, (mapInsert j h.commit h).1)

/-- Journal::get: look up the handle recorded for a link value. -/
def journalGet (j : JournalState) (link : Nat) : Option HandleM :=
  mapGet j link

/-! ## Commit pipeline (src/runir/src/repr/repo/commit.rs, add.rs, store/put.rs)

The commit UUID is a pair of 64-bit halves (hi, lo); digesting folds hash
contributions into the lo half by XOR and finish collapses the pair into
the 64-bit commit id hi XOR lo. -/

/-- Identifier variants, as consumed by Commit::ident. -/
inductive IdentM where
  | unit
  | str (s : String)
  | id (n : Nat)
deriving DecidableEq, Repr

/-- Representation types that occur in the put/load pipeline. -/
inductive ReprTy where
  | labels
  | attributes
  | thunk
  | name
deriving DecidableEq, Repr

/-- Modelled from the spec: the ReprInternals hash functions (hash_uuid,
link_hash_content, link_hash_str_id, link_hash_id) and the content
functions used by the pipeline.  Their definitions are not under src/
(only their callers are); the spec requires only that they are pure hash
functions, so they are parameters of the model.  labelsContent and
attributesContent model the Content::state_uuid implementations of
Labels and Attributes (CRC-64 folds whose CRC core is an external
crate); tyBits models Attributes::get_ty_bits. -/
structure HashFns where
  hashUuidHi : ReprTy → Nat
  hashUuidLo : ReprTy → Nat
  linkHashContent : ReprTy → Nat → Nat
  linkHashStrId : ReprTy → String → Nat
  linkHashId : ReprTy → Nat → Nat
  tyBits : ReprTy → Nat
  labelsContent : List (String × String) → Nat
  attributesContent : List (Nat × Nat) → Nat
  reprContent : ReprTy → Nat

/-- Truncation to the u64 value range. -/
def u64 (n : Nat) : Nat := n % 2 ^ 64

/-- Commit state: the (hi, lo) halves of the commit UUID. -/
structure CommitSt where
  hi : Nat
  lo : Nat
deriving DecidableEq, Repr

/-- Repo::commit seeds the commit UUID from the representation type's hash_uuid. -/
def commitSeed (F : HashFns) (ty : ReprTy) : CommitSt :=
  { hi := u64 (F.hashUuidHi ty), lo := u64 (F.hashUuidLo ty) }

/-- Commit::ident XORs the identifier hash into the lo half (Unit contributes 0). -/
def commitIdent (F : HashFns) (ty : ReprTy) (c : CommitSt) (i : IdentM) : CommitSt :=
  let nextLo : Nat :=
    match i with
    | .unit => 0
    | .str s => u64 (F.linkHashStrId ty s)
    | .id n => u64 (F.linkHashId ty n)
  { c with lo := c.lo ^^^ nextLo }

/-- Commit::digest and Commit::digest_repr XOR a content hash into the lo half. -/
def commitDigest (F : HashFns) (ty : ReprTy) (c : CommitSt) (contentCode : Nat) : CommitSt :=
  { c with lo := c.lo ^^^ u64 (F.linkHashContent ty contentCode) }

/-- Commit::finish: the commit id is hi XOR lo (a u64); the handle is
recorded in the journal and returned. -/
def commitFinish (c : CommitSt) (reprTag : Nat) (j : JournalState) : HandleM × JournalState :=
  let commit := u64 (c.hi ^^^ c.lo)
  let h : HandleM := { commit := commit, repr := reprTag }
  (h, (journalRecord j h).2)

/-- Repo::assign(repr, resource).ident(i).complete(): seed from the repr
type, apply the identifier, digest the repr content, digest the resource
content, then finish (src/runir/src/repr/repo/add.rs). -/
def assignComplete (F : HashFns) (ty : ReprTy) (reprContentCode : Nat) (resourceContent : Nat)
    (i : IdentM) (j : JournalState) : HandleM × JournalState :=
  let c := commitSeed F ty
  let c := commitIdent F ty c i
  let c := commitDigest F ty c reprContentCode
  let c := commitDigest F ty c resourceContent
  commitFinish c (u64 (F.tyBits ty)) j

/-- Item model: the stored plugin instance, identified by its content. -/
structure ItemM where
  resourceContent : Nat
deriving DecidableEq, Repr

/-- Store model: items keyed by commit id plus the repo journal. -/
structure StoreM where
  items : List (Nat × ItemM)
  journal : JournalState
deriving DecidableEq, Repr

/-- Put builder state (src/runir/src/store/put.rs and store/mod.rs). -/
structure PutM where
  resourceContent : Nat
  ident : IdentM
  attrs : List (Nat × Nat)
  labels : List (String × String)
deriving DecidableEq, Repr

/-- Store::put: a fresh Put with Unit identifier and empty attributes. -/
def storePut (p : Nat) : PutM :=
  { resourceContent := p, ident := .unit, attrs := [], labels := [] }

/-- Put::ident: applies an identifier for the resource. -/
def putIdent (pm : PutM) (i : IdentM) : PutM :=
  { pm with ident := i }

/-- Put::label: inserts a label pair into the Labels collection. -/
def putLabel (pm : PutM) (k v : String) : PutM :=
  { pm with labels := (mapInsert pm.labels k v).1 }

/-- Put::attr: assigns an attribute repr to the resource now, under the
current identifier, and records the handle in the attribute map. -/
def putAttr (F : HashFns) (ty : ReprTy) (pm : PutM) (st : StoreM) : PutM × StoreM :=
  let r := assignComplete F ty (F.reprContent ty) pm.resourceContent pm.ident st.journal
  ({ pm with attrs := (mapInsert pm.attrs (u64 (F.tyBits ty)) r.1.commit).1 },
   { st with journal := r.2 })

/-- Put::commit: assign the Labels collection, insert its handle into the
attribute map, assign the Attributes map itself, insert the item keyed
by the resulting commit id, and return the handle. -/
def putCommit (F : HashFns) (pm : PutM) (st : StoreM) : HandleM × StoreM :=
  let rL := assignComplete F .labels (F.labelsContent pm.labels) pm.resourceContent pm.ident st.journal
  let attrs1 := (mapInsert pm.attrs (u64 (F.tyBits .labels)) rL.1.commit).1
  let rA := assignComplete F .attributes (F.attributesContent attrs1) pm.resourceContent pm.ident rL.2
  let items1 := (mapInsert st.items rA.1.commit { resourceContent := pm.resourceContent }).1
  (rA.1, { items := items1, journal := rA.2 })

/-! ## Hex encoding of commit ids (hex::encode of u64 big-endian bytes) -/

/-- Lowercase hexadecimal digit character. -/
def digitChar16 (d : Nat) : Char :=
  if d < 10 then Char.ofNat (48 + d) else Char.ofNat (87 + d)

/-- Little-endian base-16 digits with fixed width. -/
def digitsLE : Nat → Nat → List Nat
  | 0, _ => []
  | w + 1, c => (c % 16) :: digitsLE w (c / 16)

/-- hex::encode(commit.to_be_bytes()): 16 lowercase hex digits, big-endian. -/
def hexEncode (c : Nat) : String :=
  ⟨((digitsLE 16 c).reverse.map digitChar16)⟩

/-! ## State: plugin registration and lookup (src/reality/src/plugin/state.rs) -/

/-- Address model: a name (by its canonical path) plus a commit id. -/
structure AddressM where
  namePath : List String
  commit : Nat
deriving DecidableEq, Repr

/-- State model: the registered-plugin path map plus the backing store. -/
structure StateM where
  plugins : List (List String × HandleM)
  store : StoreM
deriving DecidableEq, Repr

/-- The store side of State::load: put the plugin with its labels,
attach the mandatory Thunk and Name attributes (MustLoad::must_load),
and commit.  Returns the handle and the updated store. -/
def stateLoadCore (F : HashFns) (labels : List (String × String)) (p : Nat)
    (store : StoreM) : HandleM × StoreM :=
  let pm := labels.foldl (fun acc kv => putLabel acc kv.1 kv.2) (storePut p)
  let r1 := putAttr F .thunk pm store
  let r2 := putAttr F .name r1.1 r1.2
  putCommit F r2.1 r2.2

/-- State::load: commit the plugin, then insert the handle under both
the canonical Name path and the full Address path name-path/hex(commit).
Returns the Address. -/
def stateLoad (F : HashFns) (namePath : List String) (labels : List (String × String))
    (p : Nat) (st : StateM) : AddressM × StateM :=
  let r3 := stateLoadCore F labels p st.store
  let addrPath := namePath ++ [hexEncode r3.1.commit]
  let plugins1 := (mapInsert st.plugins namePath r3.1).1
  let plugins2 := (mapInsert plugins1 addrPath r3.1).1
  ({ namePath := namePath, commit := r3.1.commit },
   { plugins := plugins2, store := r3.2 })

/-- State::find_plugin: look up the handle at a path, then the item at
the handle's commit id. -/
def findPlugin (st : StateM) (path : List String) : Option ItemM :=
  (mapGet st.plugins path).bind (fun h => mapGet st.store.items h.commit)

/-! ## Name parsing and rendering (src/reality/src/plugin/name.rs)

Strings are embedded as lists of characters so the split/trim logic of
the Delimitted iterators (src/runir/src/util/delimitted.rs) can be
modelled exactly: splitn(2, DELIM) yields the part before the first
delimiter and the remainder (None when the delimiter is absent), and
each yielded part is trimmed. -/

/-- Character lists standing in for Rust string slices. -/
abbrev Chars := List Char

/-- str::trim from the left: drop leading whitespace. -/
def trimL (s : Chars) : Chars := s.dropWhile Char.isWhitespace

/-- str::trim from the right: drop trailing whitespace. -/
def trimR (s : Chars) : Chars := (trimL s.reverse).reverse

/-- str::trim: drop leading and trailing whitespace. -/
def trimChars (s : Chars) : Chars := trimR (trimL s)

/-- Split at the first occurrence of a delimiter; none when absent. -/
def splitFirst (c : Char) : Chars → Option (Chars × Chars)
  | [] => none
  | x :: xs =>
    if x = c then some ([], xs)
    else (splitFirst c xs).map (fun r => (x :: r.1, r.2))

/-- Delimitted splitn(2, c): the part before the first delimiter, and
the remainder when the delimiter occurs. -/
def splitn2 (c : Char) (s : Chars) : Chars × Option Chars :=
  match splitFirst c s with
  | none => (s, none)
  | some r => (r.1, some r.2)

/-- Decimal digit character. -/
def digitChar10 (d : Nat) : Char := Char.ofNat (48 + d)

/-- Decimal rendering of a natural number (most significant digit first). -/
def natChars (n : Nat) : Chars :=
  if n < 10 then [digitChar10 n]
  else natChars (n / 10) ++ [digitChar10 (n % 10)]
decreasing_by exact Nat.div_lt_self (by omega) (by omega)

/-- Numeric value of a decimal digit character, none for other characters. -/
def charDigit (c : Char) : Option Nat :=
  if 48 ≤ c.toNat ∧ c.toNat ≤ 57 then some (c.toNat - 48) else none

/-- Parse a non-empty all-digit character list as a natural number. -/
def parseNatChars (s : Chars) : Option Nat :=
  match s with
  | [] => none
  | _ => s.foldl (fun acc c => acc.bind (fun a => (charDigit c).map (fun d => a * 10 + d))) (some 0)

/-- semver::Version model: numeric triple plus optional pre-release and
build metadata (empty list meaning absent). -/
structure VersionM where
  major : Nat
  minor : Nat
  patch : Nat
  pre : Chars
  build : Chars
deriving DecidableEq, Repr

/-- The sentinel version 0.0.0 meaning latest (LATEST_VERSION). -/
def latestVersion : VersionM :=
  { major := 0, minor := 0, patch := 0, pre := [], build := [] }

/-- semver Display: major.minor.patch, then -pre and +build when present. -/
def displayVersion (v : VersionM) : Chars :=
  natChars v.major ++ '.' :: natChars v.minor ++ '.' :: natChars v.patch
    ++ (if v.pre = [] then [] else '-' :: v.pre)
    ++ (if v.build = [] then [] else '+' :: v.build)

/-- semver::Version::from_str model: build metadata after the first plus
sign, pre-release after the first hyphen of the rest, then exactly three
dot-separated numeric components.  Identifier-level validation that the
semver crate performs (no leading zeros, restricted character set) is
omitted: it accepts every canonical Display output, which is the domain
this model is used on. -/
def parseVersion (s : Chars) : Option VersionM :=
  let cb := splitn2 '+' s
  let build := cb.2.getD []
  let np := splitn2 '-' cb.1
  let pre := np.2.getD []
  match splitFirst '.' np.1 with
  | none => none
  | some r1 =>
    match splitFirst '.' r1.2 with
    | none => none
    | some r2 =>
      if '.' ∈ r2.2 then none
      else
        (parseNatChars r1.1).bind fun major =>
        (parseNatChars r2.1).bind fun minor =>
        (parseNatChars r2.2).bind fun patch =>
        some { major := major, minor := minor, patch := patch, pre := pre, build := build }

/-- Name model: the fields of struct Name that its plugin-ref renderings
use (the path, framework and matcher caches are derived data). -/
structure NameM where
  package : Chars
  module : Chars
  plugin : Chars
  version : VersionM
  qualifiers : List Chars
deriving DecidableEq, Repr

/-- The full plugin reference (alternate Display): package/module.plugin at version. -/
def fullPluginRef (n : NameM) : Chars :=
  n.package ++ '/' :: n.module ++ '.' :: n.plugin ++ '@' :: displayVersion n.version

/-- parse_name (src/reality/src/plugin/name.rs, utils::parse_name):
split package at the first slash; when the whole input contains an at
sign, split the rest at the first at sign, parse the version, then split
module.plugin at the first dot; otherwise use LATEST_VERSION.  Every
yielded part is trimmed (Delimitted::next).  Missing components or a
failing version parse yield IncompletePluginName. -/
def parseName (s : Chars) : Except ErrorM NameM :=
  let first := splitn2 '/' s
  let package := trimChars first.1
  match first.2 with
  | none => .error .incompletePluginName
  | some rest =>
    let pluginRef := trimChars rest
    if '@' ∈ s then
      let fr := splitn2 '@' pluginRef
      let modulePlugin := trimChars fr.1
      match fr.2 with
      | none => .error .incompletePluginName
      | some vpart =>
        match parseVersion (trimChars vpart) with
        | none => .error .incompletePluginName
        | some version =>
          let pm := splitn2 '.' modulePlugin
          match pm.2 with
          | none => .error .incompletePluginName
          | some pl =>
            .ok { package := package, module := trimChars pm.1, plugin := trimChars pl,
                  version := version, qualifiers := [] }
    else
      let pm := splitn2 '.' pluginRef
      match pm.2 with
      | none => .error .incompletePluginName
      | some pl =>
        .ok { package := package, module := trimChars pm.1, plugin := trimChars pl,
              version := latestVersion, qualifiers := [] }

/-! ## Work polling (src/reality/src/plugin/work.rs) -/

deriving instance DecidableEq for Except

/-- State of the spawned task joined by Work: still pending, finished
with the plugin result, or failed at the runtime boundary (JoinError,
converted by the From impl into TaskError). -/
inductive TaskStateM where
  | pending
  | joined (r : Except ErrorM Unit)
  | joinFailed (isPanic isCancel : Bool)
deriving DecidableEq, Repr

/-- Work: the running task plus its cancellation token state. -/
structure WorkM where
  cancelled : Bool
  task : TaskStateM
deriving DecidableEq, Repr

/-- Outcome of one poll. -/
inductive PollM where
  | pending
  | ready (r : Except ErrorM Unit)
deriving DecidableEq, Repr

/-- Future::poll for Work: when the token is cancelled the inner task is
aborted (second component true) and the poll resolves to
Err(Error::PluginAborted) — the literal constructor named at
src/reality/src/plugin/work.rs line 19; otherwise the task result is
surfaced, with join errors converted to TaskError. -/
def workPoll (w : WorkM) : PollM × Bool :=
  if w.cancelled then (.ready (.error .pluginAborted), true)
  else
    match w.task with
    | .pending => (.pending, false)
    | .joined r => (.ready r, false)
    | .joinFailed p c => (.ready (.error (.taskError p c)), false)

/-! ## Event handler attachment (src/reality/src/plugin/event.rs) -/

/-- Event model: the fields with_handler and set_handler read and write.
Type ids are abstracted to naturals. -/
structure EventM where
  itemTypeId : Nat
  handlerSet : Bool
  handlerAddr : Option AddressM
deriving DecidableEq, Repr

/-- Event::with_handler and Event::set_handler share this logic: when
the item's type id equals the handler's declared target type id, store
the handler address and thunk; otherwise return Error::PluginMismatch —
the literal constructor both methods name in the source — leaving the
event unchanged. -/
def eventSetHandler (e : EventM) (targetTypeId : Nat) (addr : AddressM) : Except ErrorM EventM :=
  if e.itemTypeId = targetTypeId then
    .ok { e with handlerSet := true, handlerAddr := some addr }
  else
    .error .pluginMismatch

/-! ## Handler wrap sequencing (src/reality/src/plugin/handler.rs) -/

/-- Observable milestones of the deferred body of Handler::wrap_thunk. -/
inductive HEvent where
  | targetWorkCompleted
  | handleInvoked
  | handlerCallStarted
deriving DecidableEq, Repr

/-- The deferred body of Handler::wrap_thunk, as a trace semantics: await
the target plugin's Work; on success rebind the target; invoke
Handler::handle on the rebinding; when handle succeeds run the handler's
own call-fn; when handle fails surface Err(PluginCallSkipped) without
running the call-fn.  Each input is the outcome of the corresponding
sub-computation; the output is the surfaced result plus the ordered
trace of milestones reached. -/
def wrapDefer (workResult rebindResult handleResult handlerCallResult : Except ErrorM Unit) :
    Except ErrorM Unit × List HEvent :=
  match workResult with
  | .error e => (.error e, [])
  | .ok _ =>
    match rebindResult with
    | .error e => (.error e, [.targetWorkCompleted])
    | .ok _ =>
      match handleResult with
      | .ok _ =>
        (handlerCallResult, [.targetWorkCompleted, .handleInvoked, .handlerCallStarted])
      | .error _ =>
        (.error .pluginCallSkipped, [.targetWorkCompleted, .handleInvoked])

/-! ## Template application (src/kioto/src/engine/env/config/template/map.rs) -/

/-- TOML values as far as apply_toml inspects them. -/
inductive TomlVal where
  | str (s : String)
  | table (t : List (String × String))
  | other
deriving DecidableEq, Repr

/-- std::io::ErrorKind values used by the builder and template code. -/
inductive IOErrKind where
  | notFound
  | invalidData
  | invalidInput
deriving DecidableEq, Repr

/-- Outcome of TemplateMap::apply_toml: the updated document, a
structured io error, or a panic (Rust aborts the thread; the model makes
the panic an explicit outcome). -/
inductive ApplyOutcome where
  | ok (doc : List (String × TomlVal))
  | ioErr (kind : IOErrKind) (message : String)
  | panicked (message : String)
deriving DecidableEq, Repr

/-- Loop of TemplateMap::apply_toml over the declared template fields in
map order: when the serialized document has the field as a string, the
input data is indexed with data[k] — the toml::map::Map Index impl,
which panics when the key is absent; a present non-table value yields
the NotFound io error missing_data_for_field; a present table renders
the template into the document.  Fields absent from the document (and
all undeclared data entries) are skipped.  Mustache compile/render is
modelled by the render parameter. -/
def applyTomlLoop (render : String → List (String × String) → String) :
    List String → List (String × TomlVal) → List (String × TomlVal) → ApplyOutcome
  | [], doc, _ => .ok doc
  | k :: restFields, doc, data =>
    match mapGet doc k with
    | some (.str field) =>
      match mapGet data k with
      | none => .panicked "no entry found for key"
      | some v =>
        match v with
        | .table input =>
          applyTomlLoop render restFields (mapInsert doc k (.str (render field input))).1 data
        | _ => .ioErr .notFound ("Missing input data for field `" ++ k ++ "`")
    | _ => applyTomlLoop render restFields doc data

/-- TemplateMap::apply_toml: serialize the input (modelled as the given
document), apply every declared field, deserialize back (modelled as
the resulting document). -/
def applyToml (render : String → List (String × String) → String) (fields : List String)
    (doc data : List (String × TomlVal)) : ApplyOutcome :=
  applyTomlLoop render fields doc data

/-! ## Environment builder (src/kioto/src/engine/env/build.rs) -/

/-- Build metadata deserialized from a -kt-build table: the declared
plugin Name string and whether a handler entry is present. -/
structure BuildMetaM where
  plugin : Chars
  isHandler : Bool
deriving DecidableEq, Repr

/-- A parsed configuration document: the -kt-build table when present. -/
structure DocM where
  ktBuild : Option BuildMetaM
deriving DecidableEq, Repr

/-- A directory entry as seen by build_env: a read error, a non-file, or
a file with its extension, stem and (for parseable toml) document. -/
inductive DirEntryM where
  | errEntry
  | notFile
  | file (ext : Option String) (stem : Option String) (doc : Option DocM)
deriving DecidableEq, Repr

/-- Per-plugin entry recorded into the engine config. -/
structure PluginConfigM where
  plugin : Chars
deriving DecidableEq, Repr

/-- Engine config being accumulated (config/engine.rs, struct Config). -/
structure ConfigM where
  plugins : List (String × PluginConfigM)
  handlers : List (String × PluginConfigM)
deriving DecidableEq, Repr

/-- Config::parse_build_document: without a -kt-build table the file is
rejected; otherwise the declared plugin name is parsed (errors are
reported as strings) and a PluginConfig is inserted under plugins or
handlers depending on the handler entry. -/
def parseBuildDocument (cfg : ConfigM) (eventName : String) (doc : DocM) :
    Except String (NameM × ConfigM) :=
  match doc.ktBuild with
  | none => .error "Skipping toml file `-kt-build` table not found"
  | some meta =>
    match parseName meta.plugin with
    | .error _ => .error "Could not parse declared plugin"
    | .ok name =>
      if meta.isHandler then
        .ok (name, { cfg with
          handlers := (mapInsert cfg.handlers eventName { plugin := meta.plugin }).1 })
      else
        .ok (name, { cfg with
          plugins := (mapInsert cfg.plugins eventName { plugin := meta.plugin }).1 })

/-- File-system effects of the builder. -/
inductive WriteOp where
  | createDir (path : List String)
  | writeFile (path : List String)
  | copyFile (dst : List String)
deriving DecidableEq, Repr

/-- The scan loop of build_env: read errors, non-files, non-toml files,
unparseable toml and files rejected by parse_build_document are skipped
(with logging); accepted files are recorded as copy tasks keyed by
(Name, event-name). -/
def buildScan : List DirEntryM → List ((NameM × String) × DirEntryM) → ConfigM →
    List ((NameM × String) × DirEntryM) × ConfigM
  | [], tasks, cfg => (tasks, cfg)
  | e :: rest, tasks, cfg =>
    match e with
    | .file (some ext) (some stem) (some doc) =>
      if ext = "toml" then
        match parseBuildDocument cfg stem doc with
        | .ok r => buildScan rest (mapInsert tasks (r.1, stem) e).1 r.2
        | .error _ => buildScan rest tasks cfg
      else buildScan rest tasks cfg
    | _ => buildScan rest tasks cfg

/-- Builder::build_env after a successful read_dir: scan the entries;
when no valid file was found fail with InvalidData "No valid files were
found" before anything is written; otherwise serialize the config and
emit the directory/config/copy writes.  Returns the result and the
ordered list of file-system writes performed. -/
def buildEnv (entries : List DirEntryM) (targetRoot : List String) :
    Except (IOErrKind × String) Unit × List WriteOp :=
  let r := buildScan entries [] { plugins := [], handlers := [] }
  if r.1 = [] then
    (.error (.invalidData, "No valid files were found"), [])
  else
    (.ok (),
      .createDir targetRoot :: .writeFile (targetRoot ++ ["config.toml"]) ::
        r.1.map (fun t => .copyFile (targetRoot ++ ["etc", t.1.2 ++ ".toml"])))

/-- Entry predicate for claim C9: every parseable toml file lacks a -kt-build table. -/
def entryNoKtBuild : DirEntryM → Bool
  | .file (some "toml") _ (some d) => d.ktBuild.isNone
  | _ => true

/-- Concrete hash-function instance used to witness claim C6. -/
def testHashFns : HashFns where
  hashUuidHi _ := 0
  hashUuidLo _ := 0
  linkHashContent _ code := code
  linkHashStrId _ _ := 0
  linkHashId _ n := n
  tyBits ty := match ty with
    | .labels => 0
    | .attributes => 1
    | .thunk => 2
    | .name => 3
  labelsContent _ := 0
  attributesContent _ := 0
  reprContent _ := 0

/-- A concrete Name used to witness claim C7: reality/plugin.test at 0.1.0. -/
def testName : NameM where
  package := "reality".data
  module := "plugin".data
  plugin := "test".data
  version := { major := 0, minor := 1, patch := 0, pre := [], build := [] }
  qualifiers := []

/-! ## Map lemmas -/

theorem mapGet_mapInsert_self {α β : Type} [DecidableEq α] (m : List (α × β)) (a : α) (b : β) :
    mapGet (mapInsert m a b).1 a = some b := by
  induction m with
  | nil => simp [mapInsert, mapGet]
  | cons hd tl ih =>
    by_cases h : hd.1 = a
    · simp [mapInsert, mapGet, h]
    · simp [mapInsert, mapGet, h, ih]

theorem mapGet_mapInsert_ne {α β : Type} [DecidableEq α] (m : List (α × β)) (a a' : α) (b : β)
    (h : a ≠ a') : mapGet (mapInsert m a b).1 a' = mapGet m a' := by
  induction m with
  | nil => simp [mapInsert, mapGet, h]
  | cons hd tl ih =>
    by_cases hk : hd.1 = a
    · have hne : a ≠ a' := h
      simp only [mapInsert, hk, if_pos rfl, mapGet]
      rw [if_neg hne, if_neg (hk ▸ hne)]
    · by_cases hk' : hd.1 = a'
      · simp only [mapInsert, if_neg hk]
        simp only [mapGet, if_pos hk']
      · simp [mapInsert, mapGet, hk, hk', ih]

theorem mapInsert_snd_eq_mapGet {α β : Type} [DecidableEq α] (m : List (α × β)) (a : α) (b : β) :
    (mapInsert m a b).2 = mapGet m a := by
  induction m with
  | nil => simp [mapInsert, mapGet]
  | cons hd tl ih =>
    by_cases h : hd.1 = a
    · simp [mapInsert, mapGet, h]
    · simp [mapInsert, mapGet, h, ih]

theorem mapRemove_snd_eq_mapGet {α β : Type} [DecidableEq α] (m : List (α × β)) (a : α) :
    (mapRemove m a).2 = mapGet m a := by
  induction m with
  | nil => simp [mapRemove, mapGet]
  | cons hd tl ih =>
    by_cases h : hd.1 = a
    · simp [mapRemove, mapGet, h]
    · simp [mapRemove, mapGet, h, ih]

theorem mapRemove_mapInsert_of_absent {α β : Type} [DecidableEq α] (m : List (α × β)) (a : α)
    (b : β) (h : mapGet m a = none) : (mapRemove (mapInsert m a b).1 a).1 = m := by
  induction m with
  | nil => simp [mapInsert, mapRemove]
  | cons hd tl ih =>
    by_cases hk : hd.1 = a
    · simp [mapGet, hk] at h
    · have h' : mapGet tl a = none := by simpa [mapGet, hk] using h
      simp [mapInsert, mapRemove, hk, ih h']

/-! ## Claim C2 -/

/-- C2: the broker holds at most one pending message per destination:
after a successful send(dest, m1), a second send(dest, m2) without an
intervening receive returns PreviousUnhandledRequest and leaves the
inbox unchanged, receive(dest) still yields m1, and after that receive a
send(dest, m2) succeeds. -/
theorem broker_one_slot (b : BrokerState) (dest : Nat) (m1 m2 : MessageData)
    (hfst : (brokerSend b dest m1).1 = .ok ()) :
    (brokerSend (brokerSend b dest m1).2 dest m2).1 = .error .previousUnhandledRequest
    ∧ (brokerSend (brokerSend b dest m1).2 dest m2).2 = (brokerSend b dest m1).2
    ∧ (brokerReceive (brokerSend b dest m1).2 dest).1 = m1
    ∧ (brokerSend (brokerReceive (brokerSend b dest m1).2 dest).2 dest m2).1 = .ok () := by
  have hnone : mapGet b dest = none := by
    cases hx : mapGet b dest with
    | none => rfl
    | some v =>
      exfalso
      rw [brokerSend] at hfst
      simp [hx] at hfst
  have hins : (mapInsert b dest m1).2 = none := by
    rw [mapInsert_snd_eq_mapGet, hnone]
  have hb1 : (brokerSend b dest m1).2 = (mapInsert b dest m1).1 := by
    rw [brokerSend]
    simp [hnone, hins]
  have hget1 : mapGet (brokerSend b dest m1).2 dest = some m1 := by
    rw [hb1]; exact mapGet_mapInsert_self b dest m1
  refine ⟨?_, ?_, ?_, ?_⟩
  · rw [brokerSend]
    simp [hget1]
  · rw [brokerSend]
    simp [hget1]
  · rw [brokerReceive]
    simp [mapRemove_snd_eq_mapGet, hget1]
  · have hb2 : (brokerReceive (brokerSend b dest m1).2 dest).2 = b := by
      rw [brokerReceive]
      simp only [hb1]
      exact mapRemove_mapInsert_of_absent b dest m1 hnone
    have hins2 : (mapInsert b dest m2).2 = none := by
      rw [mapInsert_snd_eq_mapGet, hnone]
    rw [hb2, brokerSend]
    simp [hnone, hins2]

/-- C2 witness at a concrete inbox. -/
theorem broker_one_slot_witness :
    (brokerSend (brokerSend [] 7 (.toml [("a", "b")])).2 7 .empty).1
        = .error .previousUnhandledRequest
    ∧ (brokerReceive (brokerSend [] 7 (.toml [("a", "b")])).2 7).1 = .toml [("a", "b")] := by
  have h := broker_one_slot [] 7 (.toml [("a", "b")]) .empty (by decide)
  exact ⟨h.1, h.2.2.1⟩

/-! ## Claim C10 -/

/-- C10: the Journal never overwrites an existing record: when the
handle's commit id is already present, log leaves the map unchanged and
a subsequent get of that commit id returns the originally recorded
handle. -/
theorem journal_log_immutable (j : JournalState) (h hOrig : HandleM)
    (hpresent : mapGet j h.commit = some hOrig) :
    (journalRecord j h).2 = j
    ∧ journalGet (journalRecord j h).2 h.commit = some hOrig := by
  have hsome : (mapGet j h.commit).isSome = true := by rw [hpresent]; rfl
  have hrec : (journalRecord j h).2 = j := by
    rw [journalRecord, if_pos hsome]
  exact ⟨hrec, by rw [journalGet, hrec, hpresent]⟩

/-- C10 witness: logging a different handle under an occupied commit id
changes nothing. -/
theorem journal_log_immutable_witness :
    (journalRecord [(5, ⟨5, 1⟩)] ⟨5, 2⟩).2 = [(5, ⟨5, 1⟩)]
    ∧ journalGet (journalRecord [(5, ⟨5, 1⟩)] ⟨5, 2⟩).2 5 = some ⟨5, 1⟩ :=
  journal_log_immutable [(5, ⟨5, 1⟩)] ⟨5, 2⟩ ⟨5, 1⟩ (by decide)

/-! ## Claim C3 -/

/-- C3 (code bug): polling a Work whose token is cancelled aborts the
inner task, but the value returned is Err(Error::PluginAborted), not
Err(Error::PluginCallCancelled) as the specification states — and as the
crate's own test test_plugin_work_cancel (src/reality/src/lib.rs)
asserts.  PluginAborted is moreover absent from the Error enum. -/
theorem work_poll_cancelled_aborts_with_pluginAborted :
    workPoll { cancelled := true, task := .pending } = (.ready (.error .pluginAborted), true)
    ∧ workPoll { cancelled := true, task := .joined (.ok ()) }
        = (.ready (.error .pluginAborted), true)
    ∧ ErrorM.pluginAborted ≠ ErrorM.pluginCallCancelled := by
  refine ⟨rfl, rfl, by decide⟩

/-! ## Claim C4 -/

/-- C4 (code bug): attaching a handler whose declared target type id
does not match the event's plugin type id fails and leaves the handler
unset, but the error returned by with_handler and set_handler is
Error::PluginMismatch, not Error::PluginHandlerTargetMismatch as the
specification states — although the Error enum documents
PluginHandlerTargetMismatch for exactly this condition and no code
constructs it. -/
theorem event_set_handler_mismatch_error :
    eventSetHandler { itemTypeId := 0, handlerSet := false, handlerAddr := none } 1
        { namePath := ["pkg"], commit := 0 }
      = .error .pluginMismatch
    ∧ ErrorM.pluginMismatch ≠ ErrorM.pluginHandlerTargetMismatch := by
  refine ⟨rfl, by decide⟩

/-! ## Claim C5 -/

/-- C5: in the deferred body of Handler::wrap_thunk, a successful run
produces exactly the trace target-work-completed, then handle-invoked,
then handler-call-started; and when Handler::handle returns an error
after the target work and rebind succeeded, the surfaced result is
Err(PluginCallSkipped) and the handler's call-fn never starts. -/
theorem handler_wrap_sequencing (w r h c : Except ErrorM Unit) :
    ((wrapDefer w r h c).1 = .ok () →
      (wrapDefer w r h c).2 = [.targetWorkCompleted, .handleInvoked, .handlerCallStarted])
    ∧ (∀ e : ErrorM, w = .ok () → r = .ok () → h = .error e →
        (wrapDefer w r h c).1 = .error .pluginCallSkipped
        ∧ HEvent.handlerCallStarted ∉ (wrapDefer w r h c).2) := by
  constructor
  · intro hok
    cases w with
    | error e => simp [wrapDefer] at hok
    | ok u =>
      cases r with
      | error e => simp [wrapDefer] at hok
      | ok u' =>
        cases h with
        | ok u'' => simp [wrapDefer]
        | error e => simp [wrapDefer] at hok
  · intro e hw hr hh
    subst hw; subst hr; subst hh
    refine ⟨rfl, by simp [wrapDefer]⟩

/-- C5 witness: a fully successful run and a run whose handle step
fails, at concrete outcomes. -/
theorem handler_wrap_sequencing_witness :
    (wrapDefer (.ok ()) (.ok ()) (.ok ()) (.ok ())).2
        = [.targetWorkCompleted, .handleInvoked, .handlerCallStarted]
    ∧ (wrapDefer (.ok ()) (.ok ()) (.error .pluginNotFound) (.ok ())).1
        = .error .pluginCallSkipped
    ∧ HEvent.handlerCallStarted ∉ (wrapDefer (.ok ()) (.ok ()) (.error .pluginNotFound) (.ok ())).2 := by
  refine ⟨(handler_wrap_sequencing (.ok ()) (.ok ()) (.ok ()) (.ok ())).1 (by decide), ?_, ?_⟩
  · exact ((handler_wrap_sequencing (.ok ()) (.ok ()) (.error .pluginNotFound) (.ok ())).2
      .pluginNotFound rfl rfl rfl).1
  · exact ((handler_wrap_sequencing (.ok ()) (.ok ()) (.error .pluginNotFound) (.ok ())).2
      .pluginNotFound rfl rfl rfl).2

/-! ## Claim C8 -/

/-- C8 (code bug): when the template input lacks a declared field's
entry entirely, apply_toml panics (data[k] uses the toml map Index impl,
which panics on a missing key) instead of returning the structured io
error; when the entry is present but is not a table, the NotFound io
error missing_data_for_field is returned as specified. -/
theorem template_missing_input_panics :
    applyToml (fun f _ => f) ["url"] [("url", .str "https://{{host}}/{{path}}")] []
      = .panicked "no entry found for key"
    ∧ applyToml (fun f _ => f) ["url"] [("url", .str "https://{{host}}/{{path}}")]
        [("url", .str "x")]
      = .ioErr .notFound "Missing input data for field `url`" := by
  constructor
  · rfl
  · rfl

/-! ## Claim C9 -/

theorem buildScan_no_tasks (entries : List DirEntryM)
    (hall : ∀ e ∈ entries, entryNoKtBuild e = true) :
    ∀ cfg : ConfigM, (buildScan entries [] cfg).1 = [] := by
  induction entries with
  | nil => intro cfg; rfl
  | cons e rest ih =>
    intro cfg
    have he : entryNoKtBuild e = true := hall e (List.mem_cons_self e rest)
    have hrest : ∀ x ∈ rest, entryNoKtBuild x = true := fun x hx =>
      hall x (List.mem_cons_of_mem e hx)
    cases e with
    | errEntry => exact ih hrest cfg
    | notFile => exact ih hrest cfg
    | file ext stem doc =>
      cases ext with
      | none => exact ih hrest cfg
      | some ex =>
        cases stem with
        | none => cases doc <;> exact ih hrest cfg
        | some st =>
          cases doc with
          | none => exact ih hrest cfg
          | some dd =>
            by_cases hex : ex = "toml"
            · subst hex
              have hnone : dd.ktBuild = none := by
                simpa [entryNoKtBuild, Option.isNone_iff_eq_none] using he
              simp only [buildScan, parseBuildDocument, hnone, if_pos rfl]
              exact ih hrest cfg
            · simp only [buildScan, if_neg hex]
              exact ih hrest cfg

/-- C9: when every .toml file under the source root lacks a -kt-build
table, build_env fails with an InvalidData error whose message is
"No valid files were found" and performs no file-system writes under the
target root. -/
theorem build_env_no_valid_files (entries : List DirEntryM) (targetRoot : List String)
    (hall : ∀ e ∈ entries, entryNoKtBuild e = true) :
    buildEnv entries targetRoot = (.error (.invalidData, "No valid files were found"), []) := by
  rw [buildEnv]
  have h := buildScan_no_tasks entries hall { plugins := [], handlers := [] }
  simp [h]

/-- C9 witness: one well-formed toml file without a -kt-build table. -/
theorem build_env_no_valid_files_witness :
    buildEnv [.file (some "toml") (some "a") (some { ktBuild := none })] ["target", "env"]
      = (.error (.invalidData, "No valid files were found"), []) :=
  build_env_no_valid_files [.file (some "toml") (some "a") (some { ktBuild := none })]
    ["target", "env"] (by decide)

/-! ## Claim C1 -/

/-- C1: a commit id is a deterministic pure function of its inputs: the
pipeline folds the identifier and content contributions into the lo half
of the commit UUID by XOR, finish returns hi XOR lo, and two successive
put(p).ident(i).commit() calls with the same plugin content and
identifier on the same store yield the same commit id. -/
theorem commit_id_deterministic (F : HashFns) (p : Nat) (i : IdentM) (st : StoreM) :
    (putCommit F (putIdent (storePut p) i)
        ((putCommit F (putIdent (storePut p) i) st).2)).1.commit
      = (putCommit F (putIdent (storePut p) i) st).1.commit
    ∧ (∀ (c : CommitSt) (tag : Nat) (j : JournalState),
        (commitFinish c tag j).1.commit = u64 (c.hi ^^^ c.lo)) := by
  exact ⟨rfl, fun c tag j => rfl⟩

/-! ## Hex-encoding lemmas for claim C6 -/

theorem ofDigits_digitsLE (w : Nat) : ∀ c : Nat, Nat.ofDigits 16 (digitsLE w c) = c % 16 ^ w := by
  induction w with
  | zero => intro c; simp [digitsLE, Nat.ofDigits, Nat.mod_one]
  | succ w ih =>
    intro c
    rw [digitsLE, Nat.ofDigits_cons, ih (c / 16),
      show (16 : Nat) ^ (w + 1) = 16 * 16 ^ w by ring, Nat.mod_mul]

theorem digitsLE_mem_lt (w : Nat) : ∀ c : Nat, ∀ d ∈ digitsLE w c, d < 16 := by
  induction w with
  | zero => intro c d hd; simp [digitsLE] at hd
  | succ w ih =>
    intro c d hd
    rw [digitsLE] at hd
    rcases List.mem_cons.mp hd with h | h
    · subst h; exact Nat.mod_lt _ (by norm_num)
    · exact ih (c / 16) d h

theorem digitChar16_inj : ∀ d1 : Nat, d1 < 16 → ∀ d2 : Nat, d2 < 16 →
    digitChar16 d1 = digitChar16 d2 → d1 = d2 := by decide

theorem map_digitChar16_inj : ∀ l1 l2 : List Nat, (∀ d ∈ l1, d < 16) → (∀ d ∈ l2, d < 16) →
    l1.map digitChar16 = l2.map digitChar16 → l1 = l2 := by
  intro l1
  induction l1 with
  | nil => intro l2 _ _ h; cases l2 <;> simp_all
  | cons d1 t1 ih =>
    intro l2 h1 h2 h
    cases l2 with
    | nil => simp at h
    | cons d2 t2 =>
      simp only [List.map_cons, List.cons.injEq] at h
      have hd : d1 = d2 :=
        digitChar16_inj d1 (h1 d1 (List.mem_cons_self d1 t1)) d2
          (h2 d2 (List.mem_cons_self d2 t2)) h.1
      have ht : t1 = t2 :=
        ih t2 (fun d hd' => h1 d (List.mem_cons_of_mem d1 hd'))
          (fun d hd' => h2 d (List.mem_cons_of_mem d2 hd')) h.2
      rw [hd, ht]

theorem hexEncode_inj (c1 c2 : Nat) (hb1 : c1 < 2 ^ 64) (hb2 : c2 < 2 ^ 64)
    (h : hexEncode c1 = hexEncode c2) : c1 = c2 := by
  rw [hexEncode, hexEncode] at h
  injection h with h
  rw [List.map_reverse, List.map_reverse] at h
  have hmap := List.reverse_inj.mp h
  have hdig : digitsLE 16 c1 = digitsLE 16 c2 :=
    map_digitChar16_inj _ _ (digitsLE_mem_lt 16 c1) (digitsLE_mem_lt 16 c2) hmap
  have hof := congrArg (Nat.ofDigits 16) hdig
  rw [ofDigits_digitsLE, ofDigits_digitsLE] at hof
  have h16 : (16 : Nat) ^ 16 = 2 ^ 64 := by norm_num
  rw [h16, Nat.mod_eq_of_lt hb1, Nat.mod_eq_of_lt hb2] at hof
  exact hof

theorem putCommit_commit_lt (F : HashFns) (pm : PutM) (st : StoreM) :
    (putCommit F pm st).1.commit < 2 ^ 64 := by
  simp only [putCommit, assignComplete, commitFinish, u64]
  exact Nat.mod_lt _ (by norm_num)

theorem stateLoadCore_commit_lt (F : HashFns) (ls : List (String × String)) (p : Nat)
    (store : StoreM) : (stateLoadCore F ls p store).1.commit < 2 ^ 64 :=
  putCommit_commit_lt F _ _

theorem foldl_putLabel_rc (ls : List (String × String)) :
    ∀ pm : PutM,
      (List.foldl (fun acc kv => putLabel acc kv.1 kv.2) pm ls).resourceContent
        = pm.resourceContent := by
  induction ls with
  | nil => intro pm; rfl
  | cons kv tl ih => intro pm; exact ih (putLabel pm kv.1 kv.2)

theorem putCommit_items (F : HashFns) (pm : PutM) (st : StoreM) :
    (putCommit F pm st).2.items
      = (mapInsert st.items (putCommit F pm st).1.commit
          { resourceContent := pm.resourceContent }).1 := rfl

theorem stateLoadCore_items (F : HashFns) (ls : List (String × String)) (p : Nat)
    (store : StoreM) :
    (stateLoadCore F ls p store).2.items
      = (mapInsert store.items (stateLoadCore F ls p store).1.commit
          { resourceContent := p }).1 := by
  have h := putCommit_items F
    (putAttr F .name (putAttr F .thunk
      (List.foldl (fun acc kv => putLabel acc kv.1 kv.2) (storePut p) ls) store).1
      (putAttr F .thunk
        (List.foldl (fun acc kv => putLabel acc kv.1 kv.2) (storePut p) ls) store).2).1
    (putAttr F .name (putAttr F .thunk
      (List.foldl (fun acc kv => putLabel acc kv.1 kv.2) (storePut p) ls) store).1
      (putAttr F .thunk
        (List.foldl (fun acc kv => putLabel acc kv.1 kv.2) (storePut p) ls) store).2).2
  have hrc : ((putAttr F .name (putAttr F .thunk
      (List.foldl (fun acc kv => putLabel acc kv.1 kv.2) (storePut p) ls) store).1
      (putAttr F .thunk
        (List.foldl (fun acc kv => putLabel acc kv.1 kv.2) (storePut p) ls) store).2).1).resourceContent
      = p := by
    show (List.foldl (fun acc kv => putLabel acc kv.1 kv.2) (storePut p) ls).resourceContent = p
    rw [foldl_putLabel_rc]
    rfl
  rw [hrc] at h
  exact h

/-! ## Claim C6 -/

/-- C6: registering two plugins of the same type under the same Name
path with contents whose commit ids differ yields two distinct
addresses; find_plugin on the canonical Name path returns the most
recently registered item, while find_plugin on the full Address path
name-path/hex(commit) of the first registration still returns the first
item.  The commit-id inequality hypothesis is the no-64-bit-hash-
collision assumption the spec's resolution policy relies on. -/
theorem store_two_keys_resolution (F : HashFns) (np : List String)
    (ls : List (String × String)) (p1 p2 : Nat) (st0 : StateM)
    (hne : (stateLoad F np ls p1 st0).1.commit
      ≠ (stateLoad F np ls p2 (stateLoad F np ls p1 st0).2).1.commit) :
    (stateLoad F np ls p1 st0).1 ≠ (stateLoad F np ls p2 (stateLoad F np ls p1 st0).2).1
    ∧ findPlugin (stateLoad F np ls p2 (stateLoad F np ls p1 st0).2).2 np
        = some { resourceContent := p2 }
    ∧ findPlugin (stateLoad F np ls p2 (stateLoad F np ls p1 st0).2).2
        (np ++ [hexEncode (stateLoad F np ls p1 st0).1.commit])
        = some { resourceContent := p1 } := by
  set st1 := (stateLoad F np ls p1 st0).2 with hst1
  set h1 := (stateLoadCore F ls p1 st0.store).1 with hh1
  set h2 := (stateLoadCore F ls p2 st1.store).1 with hh2
  have hc1 : (stateLoad F np ls p1 st0).1.commit = h1.commit := rfl
  have hc2 : (stateLoad F np ls p2 st1).1.commit = h2.commit := rfl
  have hcne : h1.commit ≠ h2.commit := by
    rw [hc1, hc2] at hne; exact hne
  have hb1 : h1.commit < 2 ^ 64 := stateLoadCore_commit_lt F ls p1 st0.store
  have hb2 : h2.commit < 2 ^ 64 := stateLoadCore_commit_lt F ls p2 st1.store
  have hhexne : hexEncode h1.commit ≠ hexEncode h2.commit := by
    intro h; exact hcne (hexEncode_inj _ _ hb1 hb2 h)
  have hkey12 : np ++ [hexEncode h1.commit] ≠ np ++ [hexEncode h2.commit] := by
    intro h
    apply hhexne
    have := List.append_cancel_left h
    simpa using this
  have hkeynp1 : np ≠ np ++ [hexEncode h1.commit] := by
    intro h
    have := congrArg List.length h
    simp at this
  have hkeynp2 : np ≠ np ++ [hexEncode h2.commit] := by
    intro h
    have := congrArg List.length h
    simp at this
  -- the plugin maps after each load
  have hplug1 : st1.plugins
      = (mapInsert (mapInsert st0.plugins np h1).1 (np ++ [hexEncode h1.commit]) h1).1 := rfl
  have hitems1 : st1.store.items
      = (mapInsert st0.store.items h1.commit { resourceContent := p1 }).1 :=
    stateLoadCore_items F ls p1 st0.store
  have hplug2 : (stateLoad F np ls p2 st1).2.plugins
      = (mapInsert (mapInsert st1.plugins np h2).1 (np ++ [hexEncode h2.commit]) h2).1 := rfl
  have hitems2 : (stateLoad F np ls p2 st1).2.store.items
      = (mapInsert st1.store.items h2.commit { resourceContent := p2 }).1 :=
    stateLoadCore_items F ls p2 st1.store
  refine ⟨?_, ?_, ?_⟩
  · intro h
    have := congrArg AddressM.commit h
    rw [hc1, hc2] at this
    exact hcne this
  · rw [findPlugin, hplug2]
    rw [mapGet_mapInsert_ne _ _ _ _ (fun h => hkeynp2 h.symm)]
    rw [mapGet_mapInsert_self]
    simp only [Option.some_bind]
    rw [hitems2, mapGet_mapInsert_self]
  · rw [findPlugin, hplug2, hc1]
    rw [mapGet_mapInsert_ne _ _ _ _ hkey12.symm]
    rw [mapGet_mapInsert_ne _ _ _ _ hkeynp1]
    rw [hplug1, mapGet_mapInsert_self]
    simp only [Option.some_bind]
    rw [hitems2, mapGet_mapInsert_ne _ _ _ _ (fun h => hcne h.symm), hitems1,
      mapGet_mapInsert_self]

/-- C6 witness: two registrations with contents 0 and 1 under the same
Name path on a fresh state. -/
theorem store_two_keys_resolution_witness :
    (stateLoad testHashFns ["pkg", "0.1.0", "mod", "plug"] [] 0
        { plugins := [], store := { items := [], journal := [] } }).1
      ≠ (stateLoad testHashFns ["pkg", "0.1.0", "mod", "plug"] [] 1
        (stateLoad testHashFns ["pkg", "0.1.0", "mod", "plug"] [] 0
          { plugins := [], store := { items := [], journal := [] } }).2).1
    ∧ findPlugin (stateLoad testHashFns ["pkg", "0.1.0", "mod", "plug"] [] 1
        (stateLoad testHashFns ["pkg", "0.1.0", "mod", "plug"] [] 0
          { plugins := [], store := { items := [], journal := [] } }).2).2
        ["pkg", "0.1.0", "mod", "plug"]
      = some { resourceContent := 1 } := by
  have h := store_two_keys_resolution testHashFns ["pkg", "0.1.0", "mod", "plug"] [] 0 1
    { plugins := [], store := { items := [], journal := [] } } (by decide)
  exact ⟨h.1, h.2.1⟩

/-! ## Decimal-digit lemmas for claim C7 -/

theorem charDigit_digitChar10 (d : Nat) (h : d < 10) : charDigit (digitChar10 d) = some d := by
  interval_cases d <;> decide

theorem natChars_digits (n : Nat) : ∀ c ∈ natChars n, 48 ≤ c.toNat ∧ c.toNat ≤ 57 := by
  induction n using Nat.strong_induction_on with
  | _ n ih =>
    intro c hc
    rw [natChars] at hc
    by_cases h : n < 10
    · rw [if_pos h] at hc
      have hce : c = digitChar10 n := by simpa using hc
      subst hce
      interval_cases n <;> simp [digitChar10]
    · rw [if_neg h] at hc
      rcases List.mem_append.mp hc with h1 | h2
      · exact ih (n / 10) (Nat.div_lt_self (by omega) (by omega)) c h1
      · have hce : c = digitChar10 (n % 10) := by simpa using h2
        subst hce
        have hm : n % 10 < 10 := Nat.mod_lt _ (by norm_num)
        interval_cases hmm : n % 10 <;> simp [digitChar10]

theorem natChars_ne_nil (n : Nat) : natChars n ≠ [] := by
  intro h
  rw [natChars] at h
  split at h <;> simp at h

theorem natChars_not_mem (ch : Char) (hch : ch.toNat < 48 ∨ 57 < ch.toNat) (n : Nat) :
    ch ∉ natChars n := by
  intro hmem
  have := natChars_digits n ch hmem
  omega

theorem foldDigits_natChars (n : Nat) : ∀ a : Nat,
    List.foldl (fun acc c => acc.bind (fun x => (charDigit c).map (fun d => x * 10 + d)))
        (some a) (natChars n)
      = some (a * 10 ^ (natChars n).length + n) := by
  induction n using Nat.strong_induction_on with
  | _ n ih =>
    intro a
    rw [natChars]
    by_cases h : n < 10
    · rw [if_pos h]
      simp [List.foldl, charDigit_digitChar10 n h]
    · rw [if_neg h]
      rw [List.foldl_append, ih (n / 10) (Nat.div_lt_self (by omega) (by omega)) a]
      have hm : n % 10 < 10 := Nat.mod_lt _ (by norm_num)
      simp only [List.foldl, Option.some_bind, charDigit_digitChar10 (n % 10) hm,
        Option.map_some', List.length_append, List.length_cons, List.length_nil]
      congr 1
      have hdm : 10 * (n / 10) + n % 10 = n := Nat.div_add_mod n 10
      rw [pow_succ]
      calc (a * 10 ^ (natChars (n / 10)).length + n / 10) * 10 + n % 10
          = a * (10 ^ (natChars (n / 10)).length * 10) + (10 * (n / 10) + n % 10) := by ring
        _ = a * (10 ^ (natChars (n / 10)).length * 10) + n := by rw [hdm]

theorem parseNatChars_natChars (n : Nat) : parseNatChars (natChars n) = some n := by
  have hfold := foldDigits_natChars n 0
  cases hx : natChars n with
  | nil => exact absurd hx (natChars_ne_nil n)
  | cons c cs =>
    rw [hx] at hfold
    calc parseNatChars (c :: cs)
        = List.foldl
            (fun (acc : Option Nat) (ch : Char) =>
              acc.bind (fun x => (charDigit ch).map (fun d => x * 10 + d)))
            (some 0) (c :: cs) := rfl
      _ = some (0 * 10 ^ (c :: cs).length + n) := hfold
      _ = some n := by simp

/-! ## Split and trim lemmas for claim C7 -/

theorem notMemAppend {a : Char} {xs ys : Chars} (hx : a ∉ xs) (hy : a ∉ ys) :
    a ∉ xs ++ ys := by
  intro h
  rcases List.mem_append.mp h with h | h
  · exact hx h
  · exact hy h

theorem notMemCons {a b : Char} {l : Chars} (hne : a ≠ b) (hl : a ∉ l) : a ∉ b :: l := by
  intro h
  rcases List.mem_cons.mp h with h | h
  · exact hne h
  · exact hl h

theorem splitFirst_not_mem (c : Char) (xs : Chars) (h : c ∉ xs) : splitFirst c xs = none := by
  induction xs with
  | nil => rfl
  | cons x tl ih =>
    have hx : ¬ x = c := fun he => h (he ▸ List.mem_cons_self x tl)
    have htl : c ∉ tl := fun hm => h (List.mem_cons_of_mem x hm)
    simp [splitFirst, hx, ih htl]

theorem splitFirst_append (c : Char) (xs ys : Chars) (h : c ∉ xs) :
    splitFirst c (xs ++ c :: ys) = some (xs, ys) := by
  induction xs with
  | nil => simp [splitFirst]
  | cons x tl ih =>
    have hx : ¬ x = c := fun he => h (he ▸ List.mem_cons_self x tl)
    have htl : c ∉ tl := fun hm => h (List.mem_cons_of_mem x hm)
    simp [splitFirst, hx, ih htl]

theorem splitn2_not_mem (c : Char) (xs : Chars) (h : c ∉ xs) : splitn2 c xs = (xs, none) := by
  rw [splitn2, splitFirst_not_mem c xs h]

theorem splitn2_append (c : Char) (xs ys : Chars) (h : c ∉ xs) :
    splitn2 c (xs ++ c :: ys) = (xs, some ys) := by
  rw [splitn2, splitFirst_append c xs ys h]

theorem trimL_cons (x : Char) (xs : Chars) (h : ¬ x.isWhitespace) :
    trimL (x :: xs) = x :: xs := by
  simp [trimL, List.dropWhile_cons, h]

theorem trimL_append (a b : Chars) (ha : trimL a = a) (hb : trimL b = b) :
    trimL (a ++ b) = a ++ b := by
  cases a with
  | nil => simpa using hb
  | cons x xs =>
    have hx : ¬ x.isWhitespace := by
      intro hws
      have hstep : trimL (x :: xs) = trimL xs := by
        simp [trimL, List.dropWhile_cons, hws]
      rw [ha] at hstep
      have hlen := congrArg List.length hstep
      have hle : (List.dropWhile Char.isWhitespace xs).length ≤ xs.length :=
        (List.dropWhile_sublist _).length_le
      simp only [trimL, List.length_cons] at hlen
      omega
    rw [List.cons_append, trimL_cons x (xs ++ b) hx]

theorem trimR_eq_iff (s : Chars) : trimR s = s ↔ trimL s.reverse = s.reverse := by
  constructor
  · intro h
    have h2 := congrArg List.reverse h
    rwa [trimR, List.reverse_reverse] at h2
  · intro h
    rw [trimR, h, List.reverse_reverse]

theorem trimR_append (a b : Chars) (ha : trimR a = a) (hb : trimR b = b) :
    trimR (a ++ b) = a ++ b := by
  rw [trimR_eq_iff, List.reverse_append]
  exact trimL_append b.reverse a.reverse ((trimR_eq_iff b).mp hb) ((trimR_eq_iff a).mp ha)

theorem trimChars_eq_self (s : Chars) (hl : trimL s = s) (hr : trimR s = s) :
    trimChars s = s := by
  rw [trimChars, hl, hr]

theorem digit_not_ws (c : Char) (h : 48 ≤ c.toNat ∧ c.toNat ≤ 57) : ¬ c.isWhitespace := by
  intro hws
  have hcases : c = ' ' ∨ c = '\t' ∨ c = '\r' ∨ c = '\n' := by
    simpa only [Char.isWhitespace, Bool.or_eq_true, decide_eq_true_eq, or_assoc] using hws
  rcases hcases with h1 | h1 | h1 | h1 <;> subst h1 <;> exact absurd h (by decide)

theorem trimL_natChars_append (n : Nat) (b : Chars) :
    trimL (natChars n ++ b) = natChars n ++ b := by
  cases hx : natChars n with
  | nil => exact absurd hx (natChars_ne_nil n)
  | cons c cs =>
    have hc : 48 ≤ c.toNat ∧ c.toNat ≤ 57 :=
      natChars_digits n c (by rw [hx]; exact List.mem_cons_self c cs)
    rw [List.cons_append]
    exact trimL_cons c (cs ++ b) (digit_not_ws c hc)

/-! ## Version round-trip (claim C7, semver layer) -/

theorem parseVersion_displayVersion (v : VersionM) (hpre : '+' ∉ v.pre) :
    parseVersion (displayVersion v) = some v := by
  have hdM : '.' ∉ natChars v.major := natChars_not_mem '.' (Or.inl (by decide)) _
  have hdm : '.' ∉ natChars v.minor := natChars_not_mem '.' (Or.inl (by decide)) _
  have hdp : '.' ∉ natChars v.patch := natChars_not_mem '.' (Or.inl (by decide)) _
  have hpM : '+' ∉ natChars v.major := natChars_not_mem '+' (Or.inl (by decide)) _
  have hpm : '+' ∉ natChars v.minor := natChars_not_mem '+' (Or.inl (by decide)) _
  have hpp : '+' ∉ natChars v.patch := natChars_not_mem '+' (Or.inl (by decide)) _
  have hmM : '-' ∉ natChars v.major := natChars_not_mem '-' (Or.inl (by decide)) _
  have hmm : '-' ∉ natChars v.minor := natChars_not_mem '-' (Or.inl (by decide)) _
  have hmp : '-' ∉ natChars v.patch := natChars_not_mem '-' (Or.inl (by decide)) _
  have hplusNums : '+' ∉ natChars v.major ++ '.' :: (natChars v.minor ++ '.' :: natChars v.patch) :=
    notMemAppend hpM (notMemCons (by decide) (notMemAppend hpm (notMemCons (by decide) hpp)))
  have hminusNums : '-' ∉ natChars v.major ++ '.' :: (natChars v.minor ++ '.' :: natChars v.patch) :=
    notMemAppend hmM (notMemCons (by decide) (notMemAppend hmm (notMemCons (by decide) hmp)))
  have hnum :
      (if ('.' : Char) ∈ natChars v.patch then (none : Option VersionM) else
        (parseNatChars (natChars v.major)).bind fun major =>
        (parseNatChars (natChars v.minor)).bind fun minor =>
        (parseNatChars (natChars v.patch)).bind fun patch =>
        some { major := major, minor := minor, patch := patch, pre := v.pre, build := v.build })
      = some v := by
    rw [if_neg hdp, parseNatChars_natChars, parseNatChars_natChars, parseNatChars_natChars]
    rfl
  by_cases hB : v.build = [] <;> by_cases hP : v.pre = []
  · have hd : displayVersion v
        = natChars v.major ++ '.' :: (natChars v.minor ++ '.' :: natChars v.patch) := by
      simp [displayVersion, hB, hP]
    rw [hd, parseVersion, splitn2_not_mem '+' _ hplusNums]
    simp only [Option.getD_none]
    rw [splitn2_not_mem '-' _ hminusNums]
    simp only [Option.getD_none]
    simp only [splitFirst_append '.' _ _ hdM, splitFirst_append '.' _ _ hdm]
    rw [hP, hB] at hnum
    exact hnum
  · have hd : displayVersion v
        = (natChars v.major ++ '.' :: (natChars v.minor ++ '.' :: natChars v.patch))
            ++ '-' :: v.pre := by
      simp [displayVersion, hB, hP, List.append_assoc]
    have hplusCore : '+' ∉ (natChars v.major ++ '.' :: (natChars v.minor ++ '.' :: natChars v.patch))
        ++ '-' :: v.pre :=
      notMemAppend hplusNums (notMemCons (by decide) hpre)
    rw [hd, parseVersion, splitn2_not_mem '+' _ hplusCore]
    simp only [Option.getD_none]
    rw [splitn2_append '-' _ _ hminusNums]
    simp only [Option.getD_some]
    simp only [splitFirst_append '.' _ _ hdM, splitFirst_append '.' _ _ hdm]
    rw [hB] at hnum
    exact hnum
  · have hd : displayVersion v
        = (natChars v.major ++ '.' :: (natChars v.minor ++ '.' :: natChars v.patch))
            ++ '+' :: v.build := by
      simp [displayVersion, hB, hP, List.append_assoc]
    rw [hd, parseVersion, splitn2_append '+' _ _ hplusNums]
    simp only [Option.getD_some]
    rw [splitn2_not_mem '-' _ hminusNums]
    simp only [Option.getD_none]
    simp only [splitFirst_append '.' _ _ hdM, splitFirst_append '.' _ _ hdm]
    rw [hP] at hnum
    exact hnum
  · have hd : displayVersion v
        = ((natChars v.major ++ '.' :: (natChars v.minor ++ '.' :: natChars v.patch))
            ++ '-' :: v.pre) ++ '+' :: v.build := by
      simp [displayVersion, hB, hP, List.append_assoc]
    have hplusCore : '+' ∉ (natChars v.major ++ '.' :: (natChars v.minor ++ '.' :: natChars v.patch))
        ++ '-' :: v.pre :=
      notMemAppend hplusNums (notMemCons (by decide) hpre)
    rw [hd, parseVersion, splitn2_append '+' _ _ hplusCore]
    simp only [Option.getD_some]
    rw [splitn2_append '-' _ _ hminusNums]
    simp only [Option.getD_some]
    simp only [splitFirst_append '.' _ _ hdM, splitFirst_append '.' _ _ hdm]
    exact hnum

/-! ## Claim C7 -/

/-- C7: Name parsing round-trips with rendering: for every Name whose
components are trim-stable and free of the reserved delimiters the
constructors guarantee (no slash in the package, no dot or at sign in
the module, no at sign in the plugin or the pre-release), parsing the
full-plugin-ref string package/module.plugin at version succeeds and
yields a Name whose full-plugin-ref is byte-identical to the input. -/
theorem name_full_ref_roundtrip (n : NameM)
    (hpkgL : trimL n.package = n.package) (hpkgR : trimR n.package = n.package)
    (hpkgSlash : '/' ∉ n.package)
    (hmodL : trimL n.module = n.module) (hmodR : trimR n.module = n.module)
    (hmodDot : '.' ∉ n.module) (hmodAt : '@' ∉ n.module)
    (hplugL : trimL n.plugin = n.plugin) (hplugR : trimR n.plugin = n.plugin)
    (hplugAt : '@' ∉ n.plugin)
    (hpre : '+' ∉ n.version.pre)
    (hverL : trimL (displayVersion n.version) = displayVersion n.version)
    (hverR : trimR (displayVersion n.version) = displayVersion n.version) :
    parseName (fullPluginRef n) = .ok { n with qualifiers := [] }
    ∧ fullPluginRef { n with qualifiers := [] } = fullPluginRef n := by
  refine ⟨?_, rfl⟩
  have hd : fullPluginRef n
      = n.package ++ '/' :: ((n.module ++ '.' :: n.plugin) ++ '@' :: displayVersion n.version) := by
    simp [fullPluginRef, List.append_assoc, List.cons_append]
  have hat : '@' ∈ n.package
      ++ '/' :: ((n.module ++ '.' :: n.plugin) ++ '@' :: displayVersion n.version) := by
    simp
  have hsplit1 : splitn2 '/' (n.package
      ++ '/' :: ((n.module ++ '.' :: n.plugin) ++ '@' :: displayVersion n.version))
      = (n.package, some ((n.module ++ '.' :: n.plugin) ++ '@' :: displayVersion n.version)) :=
    splitn2_append '/' _ _ hpkgSlash
  have htrimPkg : trimChars n.package = n.package := trimChars_eq_self _ hpkgL hpkgR
  have h1 : trimR ('.' :: n.plugin) = '.' :: n.plugin := by
    have h := trimR_append ['.'] n.plugin (by decide) hplugR
    simpa using h
  have h2 : trimR ('@' :: displayVersion n.version) = '@' :: displayVersion n.version := by
    have h := trimR_append ['@'] (displayVersion n.version) (by decide) hverR
    simpa using h
  have htrimMPl : trimL (n.module ++ '.' :: n.plugin) = n.module ++ '.' :: n.plugin :=
    trimL_append _ _ hmodL (trimL_cons '.' n.plugin (by decide))
  have htrimMPr : trimR (n.module ++ '.' :: n.plugin) = n.module ++ '.' :: n.plugin :=
    trimR_append _ _ hmodR h1
  have htrimMP : trimChars (n.module ++ '.' :: n.plugin) = n.module ++ '.' :: n.plugin :=
    trimChars_eq_self _ htrimMPl htrimMPr
  have htrimBl : trimL ((n.module ++ '.' :: n.plugin) ++ '@' :: displayVersion n.version)
      = (n.module ++ '.' :: n.plugin) ++ '@' :: displayVersion n.version :=
    trimL_append _ _ htrimMPl (trimL_cons '@' _ (by decide))
  have htrimBr : trimR ((n.module ++ '.' :: n.plugin) ++ '@' :: displayVersion n.version)
      = (n.module ++ '.' :: n.plugin) ++ '@' :: displayVersion n.version :=
    trimR_append _ _ htrimMPr h2
  have htrimB : trimChars ((n.module ++ '.' :: n.plugin) ++ '@' :: displayVersion n.version)
      = (n.module ++ '.' :: n.plugin) ++ '@' :: displayVersion n.version :=
    trimChars_eq_self _ htrimBl htrimBr
  have hAtCore : '@' ∉ n.module ++ '.' :: n.plugin :=
    notMemAppend hmodAt (notMemCons (by decide) hplugAt)
  have hsplit2 : splitn2 '@' ((n.module ++ '.' :: n.plugin) ++ '@' :: displayVersion n.version)
      = (n.module ++ '.' :: n.plugin, some (displayVersion n.version)) :=
    splitn2_append '@' _ _ hAtCore
  have htrimDv : trimChars (displayVersion n.version) = displayVersion n.version :=
    trimChars_eq_self _ hverL hverR
  have hver : parseVersion (displayVersion n.version) = some n.version :=
    parseVersion_displayVersion n.version hpre
  have hsplit3 : splitn2 '.' (n.module ++ '.' :: n.plugin) = (n.module, some n.plugin) :=
    splitn2_append '.' _ _ hmodDot
  have htrimMod : trimChars n.module = n.module := trimChars_eq_self _ hmodL hmodR
  have htrimPlug : trimChars n.plugin = n.plugin := trimChars_eq_self _ hplugL hplugR
  rw [hd]
  simp only [parseName, hsplit1, htrimPkg, hat, if_true, htrimB,
    hsplit2, htrimDv, hver, htrimMP, hsplit3, htrimMod, htrimPlug]

/-- C7 witness: the name reality/plugin.test at version 0.1.0. -/
theorem name_full_ref_roundtrip_witness :
    parseName (fullPluginRef testName) = .ok testName
    ∧ fullPluginRef testName = fullPluginRef testName := by
  have h0 : natChars 0 = ['0'] := by rw [natChars]; decide
  have h1 : natChars 1 = ['1'] := by rw [natChars]; decide
  have hdv : displayVersion testName.version = ['0', '.', '1', '.', '0'] := by
    show displayVersion { major := 0, minor := 1, patch := 0, pre := [], build := [] } = _
    rw [displayVersion]
    simp [h0, h1]
  have hvL : trimL (displayVersion testName.version) = displayVersion testName.version := by
    rw [hdv]; decide
  have hvR : trimR (displayVersion testName.version) = displayVersion testName.version := by
    rw [hdv]; decide
  have h := name_full_ref_roundtrip testName
    (by decide) (by decide) (by decide) (by decide) (by decide) (by decide) (by decide)
    (by decide) (by decide) (by decide) (by decide) hvL hvR
  exact ⟨h.1, h.2⟩

end Runplat
